import Mathlib

set_option maxRecDepth 10000

/-! Verification of the tango-gateway core (src/tangogateway.py): a shallow
embedding of the GIOP codec, the frame reader `read_frame`, the dynamic
forwarder registry hung off the event loop, and the two relay pipes
`forward_pipe` and `inspect_pipe`, together with theorems settling the
specification claims about them.

Octet strings (Python `bytes`) and decoded strings (Python `str`, which in
the source only ever hold ASCII host addresses) are both embedded as
`List Nat` of octet values.  The `giop` module imported by the source is part
of the repository but its code is not available, so its operations are
modelled from the specification (sections 3 and 4.1); each such definition
carries a doc comment starting with `Modelled from the spec:`. -/

/-- Errors of the embedded gateway core: the protocol errors of the GIOP
codec, bind failures raised by the OS, and the dynamic-typing failures that
the untyped source can run into. -/
inductive Err where
  | malformedHeader
  | malformedReply
  | malformedIor
  | typeError
  | keyError
  | bindFailure
deriving DecidableEq

deriving instance DecidableEq for Except

/-- A dynamic (Python) value: the fields of the IOR record exposed by the
codec hold either an octet string or an unsigned integer, and the untyped
source can place either shape into either field. -/
inductive PyVal where
  | bytes : List Nat → PyVal
  | num : Nat → PyVal
deriving DecidableEq

/-- Modelled from the spec: the logical IOR record returned by the codec
carries the IIOP profile's host octet-string (trailing NUL included) and its
16-bit port (spec section 3).  The fields are dynamic values because the
source later overwrites them through an untyped `_replace`. -/
structure IOR where
  host : PyVal
  port : PyVal
deriving DecidableEq

/-- Modelled from the spec: the parsed 12-octet GIOP header.  The magic is
validated on unpack and re-emitted on pack, so it is not a field. -/
structure GiopHeader where
  major : Nat
  minor : Nat
  flags : Nat
  messageType : Nat
  size : Nat
deriving DecidableEq

/-- Modelled from the spec: the Reply header fields the gateway uses
(request id and reply status; spec section 3). -/
structure ReplyHeader where
  requestId : Nat
  replyStatus : Nat
deriving DecidableEq

/-- Modelled from the spec: GIOP message type Reply = 1 (spec section 3). -/
def MessageType.Reply : Nat := 1

/-- Modelled from the spec: reply status NoException = 0 (spec section 3). -/
def ReplyStatus.NoException : Nat := 0

/-- Modelled from the spec: encode an unsigned 32-bit integer in the given
byte order (`true` = little-endian). -/
def encodeU32 (le : Bool) (n : Nat) : List Nat :=
  if le then [n % 256, n / 256 % 256, n / 65536 % 256, n / 16777216 % 256]
  else [n / 16777216 % 256, n / 65536 % 256, n / 256 % 256, n % 256]

/-- Modelled from the spec: decode four octets as an unsigned 32-bit integer
in the given byte order. -/
def decodeU32 (le : Bool) (bs : List Nat) : Nat :=
  if le then bs.getD 0 0 + 256 * bs.getD 1 0 + 65536 * bs.getD 2 0 + 16777216 * bs.getD 3 0
  else bs.getD 3 0 + 256 * bs.getD 2 0 + 65536 * bs.getD 1 0 + 16777216 * bs.getD 0 0

/-- Modelled from the spec: encode an unsigned 16-bit integer in the given
byte order. -/
def encodeU16 (le : Bool) (n : Nat) : List Nat :=
  if le then [n % 256, n / 256 % 256] else [n / 256 % 256, n % 256]

/-- Modelled from the spec: decode two octets as an unsigned 16-bit integer
in the given byte order. -/
def decodeU16 (le : Bool) (bs : List Nat) : Nat :=
  if le then bs.getD 0 0 + 256 * bs.getD 1 0
  else bs.getD 1 0 + 256 * bs.getD 0 0

/-- Read an unsigned 32-bit integer at an offset inside a buffer, failing
when it would run past the end. -/
def readU32At (le : Bool) (bs : List Nat) (off : Nat) : Option Nat :=
  if off + 4 ≤ bs.length then some (decodeU32 le ((bs.drop off).take 4)) else none

/-- Read an unsigned 16-bit integer at an offset inside a buffer, failing
when it would run past the end. -/
def readU16At (le : Bool) (bs : List Nat) (off : Nat) : Option Nat :=
  if off + 2 ≤ bs.length then some (decodeU16 le ((bs.drop off).take 2)) else none

/-- CDR alignment of an offset to a 2-octet boundary. -/
def align2 (o : Nat) : Nat := o + o % 2

/-- CDR alignment of an offset to a 4-octet boundary. -/
def align4 (o : Nat) : Nat := (o + 3) / 4 * 4

/-- Modelled from the spec: `pack_giop` emits the 12-octet GIOP header
(magic G,I,O,P, version, flags, message type, then the size in the byte
order selected by flags bit 0) followed by the body (spec sections 3 and
4.1). -/
def pack_giop (h : GiopHeader) (body : List Nat) : List Nat :=
  71 :: 73 :: 79 :: 80 :: h.major :: h.minor :: h.flags :: h.messageType ::
    (encodeU32 (h.flags % 2 == 1) h.size ++ body)

/-- Modelled from the spec: `unpack_giop_header` fails with MalformedHeader
if the input is shorter than 12 octets or the magic is not G,I,O,P;
otherwise it reads version, flags, message type and the size in the byte
order indicated by flags bit 0, without validating the message type (spec
section 4.1). -/
def unpack_giop_header (bs : List Nat) : Except Err GiopHeader :=
  match bs with
  | m0 :: m1 :: m2 :: m3 :: ma :: mi :: fl :: mt :: s0 :: s1 :: s2 :: s3 :: _ =>
    if m0 = 71 ∧ m1 = 73 ∧ m2 = 79 ∧ m3 = 80 then
      .ok ⟨ma, mi, fl, mt, decodeU32 (fl % 2 == 1) [s0, s1, s2, s3]⟩
    else .error .malformedHeader
  | _ => .error .malformedHeader

/-- Modelled from the spec: skip the encoded service context list, one
context being a 4-octet id and a length-prefixed octet sequence, realigning
to a 4-octet boundary afterwards; fails on truncation. -/
def skipServiceContexts (le : Bool) (bs : List Nat) : Nat → Nat → Option Nat
  | 0, off => some off
  | n + 1, off =>
    match readU32At le bs off, readU32At le bs (off + 4) with
    | some _, some len =>
      if off + 8 + len ≤ bs.length then
        skipServiceContexts le bs n (align4 (off + 8 + len))
      else none
    | _, _ => none

/-- Modelled from the spec: `unpack_reply_header` parses the service context
list, the request id and the reply status in the enclosing header's byte
order, failing with MalformedReply on truncation (spec section 4.1). -/
def unpack_reply_header (le : Bool) (bs : List Nat) : Except Err ReplyHeader :=
  match readU32At le bs 0 with
  | none => .error .malformedReply
  | some count =>
    match skipServiceContexts le bs count 4 with
    | none => .error .malformedReply
    | some off =>
      match readU32At le bs off, readU32At le bs (off + 4) with
      | some rid, some st => .ok ⟨rid, st⟩
      | _, _ => .error .malformedReply

/-- The fields of a parsed IIOP profile encapsulation: byte-order octet,
IIOP version, host octet-string (trailing NUL included), port, and the
offset just past the encoded port (used for in-place rewriting). -/
structure ProfileInfo where
  bo : Nat
  major : Nat
  minor : Nat
  host : List Nat
  port : Nat
  portEnd : Nat
deriving DecidableEq

/-- Modelled from the spec: parse an IIOP profile encapsulation (its own
byte-order octet, version, NUL-terminated length-prefixed host string,
2-octet port, length-prefixed object key), tracking CDR alignment relative
to the start of the encapsulation (spec sections 3 and 9). -/
def parseProfile (p : List Nat) : Option ProfileInfo :=
  match p.head? with
  | none => none
  | some bo =>
    if bo ≤ 1 then
      let le := bo == 1
      match readU32At le p 4 with
      | none => none
      | some hlen =>
        if hlen = 0 then none
        else if 8 + hlen ≤ p.length then
          let host := (p.drop 8).take hlen
          if host.getLast? = some 0 then
            let po := align2 (8 + hlen)
            match readU16At le p po with
            | none => none
            | some port =>
              match readU32At le p (align4 (po + 2)) with
              | none => none
              | some klen =>
                if align4 (po + 2) + 4 + klen ≤ p.length then
                  some ⟨bo, p.getD 1 0, p.getD 2 0, host, port, po + 2⟩
                else none
          else none
        else none
    else none

/-- Modelled from the spec: try to parse an encoded IOR at offset s of the
reply body: a NUL-terminated length-prefixed type id, a profile sequence
whose first profile is a well-formed IIOP (tag 0) profile.  Returns the IOR
record and the octet range of the encoded profile (spec section 4.1). -/
def parseIORAt (le : Bool) (body : List Nat) (s : Nat) : Option (IOR × Nat × Nat) :=
  match readU32At le body s with
  | none => none
  | some tlen =>
    if tlen = 0 then none
    else if s + 4 + tlen ≤ body.length ∧ body.getD (s + 4 + tlen - 1) 1 = 0 then
      let o1 := align4 (s + 4 + tlen)
      match readU32At le body o1 with
      | none => none
      | some pcount =>
        if pcount = 0 then none
        else
          match readU32At le body (o1 + 4), readU32At le body (o1 + 8) with
          | some tag, some plen =>
            if tag = 0 then
              let start := o1 + 12
              let stop := start + plen
              if stop ≤ body.length then
                match parseProfile ((body.drop start).take plen) with
                | some info => some (⟨.bytes info.host, .num info.port⟩, start, stop)
                | none => none
              else none
            else none
          | _, _ => none
    else none

/-- Scan successive offsets of the body for the first parseable IOR, with
fuel bounding the scan. -/
def findIorScan (le : Bool) (body : List Nat) : Nat → Nat → Option (IOR × Nat × Nat)
  | 0, _ => none
  | fuel + 1, s =>
    match parseIORAt le body s with
    | some r => some r
    | none => findIorScan le body fuel (s + 1)

/-- Modelled from the spec: `find_ior` scans the reply body for the first
encoded IOR whose first IIOP profile is well-formed and returns the logical
IOR record together with the profile's byte range; absence of an IOR is not
an error (spec section 4.1). -/
def find_ior (le : Bool) (body : List Nat) : Option (IOR × Nat × Nat) :=
  findIorScan le body (body.length + 1) 0

/-- Modelled from the spec: rebuild an IIOP profile encapsulation with the
host and port substituted in place; the host string's length prefix and the
alignment padding before the port are adjusted so the encoding stays
self-consistent, and the remaining octets (the object key) are preserved
verbatim (spec section 4.1). -/
def reencodeProfile (old : List Nat) (host : List Nat) (port : Nat) : Option (List Nat) :=
  match parseProfile old with
  | none => none
  | some info =>
    let le := info.bo == 1
    let pad := List.replicate (align2 (8 + host.length) - (8 + host.length)) 0
    some (old.take 4 ++ encodeU32 le host.length ++ host ++ pad ++
      encodeU16 le port ++ old.drop info.portEnd)

/-- Modelled from the spec: `repack_ior` produces a new reply body in which
the profile delimited by (start, stop) has its host and port substituted;
all other octets of the body are preserved verbatim.  The spec types the
host as an octet string and the port as an unsigned 16-bit integer; dynamic
values of any other shape (which the untyped source can produce) fail as a
type error, as the byte-packing in the source's codec would (spec section
4.1). -/
def repack_ior (body : List Nat) (ior : IOR) (start stop : Nat) : Except Err (List Nat) :=
  match ior.host, ior.port with
  | .bytes h, .num p =>
    match reencodeProfile ((body.drop start).take (stop - start)) h p with
    | some prof => .ok (body.take start ++ prof ++ body.drop stop)
    | none => .error .malformedIor
  | _, _ => .error .typeError

/-- The state of an asyncio stream reader: the octets already received and
not yet read, and the chunks still to arrive (the stream is at EOF once both
are exhausted). -/
structure StreamState where
  buffer : List Nat
  chunks : List (List Nat)
deriving DecidableEq

/-- The reading core of asyncio's StreamReader.read(n): wait until at least
one octet is buffered (or EOF), then return up to n octets from the buffer.
Returns the data read, the remaining buffer and the remaining chunks. -/
def sreadAux (n : Nat) : List Nat → List (List Nat) → List Nat × List Nat × List (List Nat)
  | [], [] => ([], [], [])
  | [], c :: cs => sreadAux n c cs
  | b :: bs, cs => ((b :: bs).take n, (b :: bs).drop n, cs)

/-- asyncio StreamReader.read(n) on a stream state: it returns up to n
octets, not exactly n. -/
def sread (n : Nat) (st : StreamState) : List Nat × StreamState :=
  let r := sreadAux n st.buffer st.chunks
  (r.1, ⟨r.2.1, r.2.2⟩)

/-- asyncio StreamReader.at_eof: the stream is exhausted and its buffer is
empty. -/
def at_eof (st : StreamState) : Bool :=
  st.buffer.isEmpty && st.chunks.isEmpty

/-- A dynamic forwarding listener as created by asyncio.start_server: the
backend endpoint its accept handler connects to (the partial application of
`forward` in the source) and the socket name it is bound on. -/
structure Server where
  targetHost : List Nat
  targetPort : Nat
  boundHost : List Nat
  boundPort : Nat
deriving DecidableEq

/-- The outcomes the OS will give to successive bind requests: `some p`
means the next bind succeeds and the OS assigns port p to the ephemeral
request, `none` means the next bind fails. -/
structure Os where
  binds : List (Option Nat)
deriving DecidableEq

/-- Modelled from the spec: asyncio.start_server(handler, addr, 0) either
fails to bind or returns a listener bound on addr at the OS-assigned port,
whose getsockname reports (addr, assigned port) (spec section 4.3). -/
def startServer (os : Os) (addr : List Nat) (requested : Nat) (target : List Nat × Nat) :
    Except Err Server × Os :=
  match os.binds with
  | [] => (.error .bindFailure, ⟨[]⟩)
  | none :: rest => (.error .bindFailure, ⟨rest⟩)
  | some p :: rest =>
    (.ok ⟨target.1, target.2, addr, if requested = 0 then p else requested⟩, ⟨rest⟩)

/-- Lookup in a Python dict embedded as an association list. -/
def dictLookup {α β : Type} [DecidableEq α] (k : α) : List (α × β) → Option β
  | [] => none
  | (k2, v) :: rest => if k2 = k then some v else dictLookup k rest

/-- Assignment d[k] = v in a Python dict embedded as an association list:
replace the binding in place if the key is present, append it otherwise. -/
def dictInsert {α β : Type} [DecidableEq α] (k : α) (v : β) : List (α × β) → List (α × β)
  | [] => [(k, v)]
  | (k2, v2) :: rest => if k2 = k then (k, v) :: rest else (k2, v2) :: dictInsert k v rest

/-- The registry value tuple exactly as the source builds it at lines 66-70:
(server, server.sockets[0].getsockname()[1], getsockname()[0] + NUL), that
is the listener handle, then the bound PORT, then the bound host
octet-string with a trailing NUL. -/
abbrev ForwardValue := Server × Nat × List Nat

/-- The state the source hangs off the event loop: the configured bind
address and the forwarding dict keyed by backend (host, port). -/
structure LoopState where
  bind_address : List Nat
  forward_dict : List ((List Nat × Nat) × ForwardValue)
deriving DecidableEq

/-- Reading loop.forward_dict[key], raising KeyError when absent. -/
def lookupStep (os : Os) (l : LoopState) (key : List Nat × Nat) :
    Except Err ForwardValue × Os × LoopState :=
  match dictLookup key l.forward_dict with
  | some v => (.ok v, os, l)
  | none => (.error .keyError, os, l)

/-- Lines 62-75 of the source: if the key is not in loop.forward_dict, start
a new listener on (loop.bind_address, 0) whose handler forwards to the key's
backend endpoint, store (server, bound port, bound host + NUL) under the
key, then read loop.forward_dict[key] back. -/
def ensureForward (os : Os) (l : LoopState) (key : List Nat × Nat) :
    Except Err ForwardValue × Os × LoopState :=
  if (dictLookup key l.forward_dict).isSome then
    lookupStep os l key
  else
    match startServer os l.bind_address 0 key with
    | (.error e, os2) => (.error e, os2, l)
    | (.ok server, os2) =>
      let value : ForwardValue := (server, server.boundPort, server.boundHost ++ [0])
      lookupStep os2 { l with forward_dict := dictInsert key value l.forward_dict } key

/-- Line 61 of the source: host = ior.host[:-1].decode(); key = host,
ior.port.  Decoding an ASCII host is the identity on octet lists; slicing a
non-bytes host or keying on a non-numeric port is a dynamic type error. -/
def iorKey (ior : IOR) : Except Err (List Nat × Nat) :=
  match ior.host, ior.port with
  | .bytes h, .num p => .ok (h.dropLast, p)
  | _, _ => .error .typeError

/-- Line 76 of the source: ior._replace(host=host, port=port), where the
names host and port were just bound by the destructuring assignment
server, host, port = loop.forward_dict[key] - so host receives the stored
tuple's second component (the bound port number) and port its third (the
bound host octet-string). -/
def patchIor (value : ForwardValue) (ior : IOR) : IOR :=
  { ior with host := .num value.2.1, port := .bytes value.2.2 }

/-- Lines 78-81 of the source: raw_data = raw_reply_header + raw_body;
header = header._replace(size=len(raw_data)); return pack_giop(header,
raw_body).  The size is recomputed from the reply header plus the repacked
body, but only the repacked body is passed to pack_giop. -/
def emitRewritten (header : GiopHeader) (raw_reply_header raw_body : List Nat) : List Nat :=
  let raw_data := raw_reply_header ++ raw_body
  let header2 := { header with size := raw_data.length }
  pack_giop header2 raw_body

/-- The source's read_frame coroutine: read 12 octets (up to 12 - asyncio
read is not exact), return empty on clean EOF, unpack the GIOP header, read
the body, pass non-Reply frames and non-NoException Replies through
unchanged, otherwise look for an IOR, ensure a forwarder for its endpoint,
patch the IOR from the registry value and emit the repacked frame.  The
source's bare names `message_type` and `reply_header` are read as the parsed
header's message type and the unpacked reply header (the spec resolves them
so, section 9). -/
def read_frame (os : Os) (l : LoopState) (st : StreamState) :
    Except Err (List Nat) × Os × LoopState × StreamState :=
  let r1 := sread 12 st
  if r1.1.isEmpty then (.ok [], os, l, r1.2)
  else
    match unpack_giop_header r1.1 with
    | .error e => (.error e, os, l, r1.2)
    | .ok header =>
      let le := header.flags % 2 == 1
      let r2 := sread header.size r1.2
      let raw_frame := r1.1 ++ r2.1
      if header.messageType ≠ MessageType.Reply then (.ok raw_frame, os, l, r2.2)
      else
        match unpack_reply_header le (r2.1.take 12) with
        | .error e => (.error e, os, l, r2.2)
        | .ok reply_header =>
          if reply_header.replyStatus ≠ ReplyStatus.NoException then (.ok raw_frame, os, l, r2.2)
          else
            match find_ior le (r2.1.drop 12) with
            | none => (.ok raw_frame, os, l, r2.2)
            | some (ior, start, stop) =>
              match iorKey ior with
              | .error e => (.error e, os, l, r2.2)
              | .ok key =>
                let r3 := ensureForward os l key
                match r3.1 with
                | .error e => (.error e, r3.2.1, r3.2.2, r2.2)
                | .ok value =>
                  match repack_ior (r2.1.drop 12) (patchIor value ior) start stop with
                  | .error e => (.error e, r3.2.1, r3.2.2, r2.2)
                  | .ok raw_body2 =>
                    (.ok (emitRewritten header (r2.1.take 12) raw_body2), r3.2.1, r3.2.2, r2.2)

/-- Relay traffic observable at a pipe's writer endpoint: written data and
the closing of the writer. -/
inductive Event where
  | write : List Nat → Event
  | closeWriter : Event
deriving DecidableEq

/-- Weight of the pending chunks of a stream, counting one extra unit per
chunk so that consuming even an empty chunk makes progress. -/
def chunksWeight (cs : List (List Nat)) : Nat :=
  (cs.map fun c => c.length + 1).sum

/-- Measure of a stream state: buffered octets plus the weight of the
pending chunks. -/
def msize (st : StreamState) : Nat :=
  st.buffer.length + chunksWeight st.chunks

theorem sreadAux_msize_le (n : Nat) (cs : List (List Nat)) (b : List Nat) :
    (sreadAux n b cs).2.1.length + chunksWeight (sreadAux n b cs).2.2 ≤
      b.length + chunksWeight cs := by
  induction cs generalizing b with
  | nil =>
    cases b with
    | nil => simp [sreadAux]
    | cons x xs =>
      simp only [sreadAux]
      have := List.length_drop n (x :: xs)
      omega
  | cons c cs2 ih =>
    cases b with
    | nil =>
      have h := ih c
      simp only [sreadAux, chunksWeight, List.map_cons, List.sum_cons] at h ⊢
      omega
    | cons x xs =>
      simp only [sreadAux]
      have := List.length_drop n (x :: xs)
      omega

theorem sreadAux_msize_lt (n : Nat) (hn : 0 < n) (cs : List (List Nat)) (b : List Nat)
    (h : b ≠ [] ∨ cs ≠ []) :
    (sreadAux n b cs).2.1.length + chunksWeight (sreadAux n b cs).2.2 <
      b.length + chunksWeight cs := by
  cases b with
  | cons x xs =>
    simp only [sreadAux]
    have := List.length_drop n (x :: xs)
    have : ((x :: xs).drop n).length < (x :: xs).length := by
      rw [List.length_drop]
      simp only [List.length_cons]
      omega
    omega
  | nil =>
    cases cs with
    | nil => rcases h with h1 | h1 <;> exact absurd rfl h1
    | cons c cs2 =>
      have h := sreadAux_msize_le n cs2 c
      simp only [sreadAux, chunksWeight, List.map_cons, List.sum_cons] at h ⊢
      omega

theorem msize_sread_le (n : Nat) (st : StreamState) :
    msize (sread n st).2 ≤ msize st := by
  have := sreadAux_msize_le n st.chunks st.buffer
  simp only [sread, msize]
  exact this

theorem msize_sread_lt (n : Nat) (hn : 0 < n) (st : StreamState)
    (h : at_eof st = false) :
    msize (sread n st).2 < msize st := by
  have hb : st.buffer ≠ [] ∨ st.chunks ≠ [] := by
    rcases st with ⟨b, cs⟩
    cases b with
    | nil =>
      cases cs with
      | nil => simp [at_eof] at h
      | cons c cs2 => right; simp
    | cons x xs => left; simp
  have := sreadAux_msize_lt n hn st.chunks st.buffer hb
  simp only [sread, msize]
  exact this

theorem read_frame_msize (os : Os) (l : LoopState) (st : StreamState)
    (h : at_eof st = false) :
    msize (read_frame os l st).2.2.2 < msize st := by
  have h1 : msize (sread 12 st).2 < msize st := msize_sread_lt 12 (by omega) st h
  have h2 : ∀ n : Nat, msize (sread n (sread 12 st).2).2 < msize st :=
    fun n => lt_of_le_of_lt (msize_sread_le n (sread 12 st).2) h1
  dsimp only [read_frame]
  repeat' split
  all_goals first
    | exact h1
    | exact h2 _

/-- The source's forward_pipe coroutine: with closing(writer), while the
reader is not at EOF, read up to 4096 octets and write them; the with-block
closes the writer on every exit.  The result is the trace of events at the
writer. -/
def forward_pipe (st : StreamState) : List Event :=
  if h : at_eof st = true then [Event.closeWriter]
  else Event.write (sread 4096 st).1 :: forward_pipe (sread 4096 st).2
termination_by msize st
decreasing_by
  exact msize_sread_lt 4096 (by omega) st (by simpa using h)

/-- The source's inspect_pipe coroutine: with closing(writer), while the
reader is not at EOF, run read_frame and write the returned frame, breaking
on an empty result; the with-block closes the writer on every exit path,
including when read_frame raises - in that case the trace still ends with
the close and the exception then ends the task. -/
def inspect_pipe (os : Os) (l : LoopState) (st : StreamState) :
    List Event × Os × LoopState :=
  if h : at_eof st = true then ([Event.closeWriter], os, l)
  else
    match (read_frame os l st).1 with
    | .error _ => ([Event.closeWriter], (read_frame os l st).2.1, (read_frame os l st).2.2.1)
    | .ok data =>
      if data.isEmpty then
        ([Event.closeWriter], (read_frame os l st).2.1, (read_frame os l st).2.2.1)
      else
        let r := inspect_pipe (read_frame os l st).2.1 (read_frame os l st).2.2.1
          (read_frame os l st).2.2.2
        (Event.write data :: r.1, r.2.1, r.2.2)
termination_by msize st
decreasing_by
  exact read_frame_msize os l st (by simpa using h)

/-- The gateway bind address 192.168.1.10 (as an octet string) used in the
concrete scenarios. -/
def bindBytes : List Nat := [49, 57, 50, 46, 49, 54, 56, 46, 49, 46, 49, 48]

/-- The backend host octet-string 10.0.0.5 with its trailing NUL. -/
def host0Nul : List Nat := [49, 48, 46, 48, 46, 48, 46, 53, 0]

/-- A little-endian reply body holding one encoded IOR: a two-octet type id,
one profile with tag 0 whose 25-octet IIOP encapsulation names host
10.0.0.5 (NUL-terminated) and port 45678, with a one-octet object key. -/
def iorBody : List Nat :=
  [2, 0, 0, 0, 97, 0, 0, 0, 1, 0, 0, 0, 0, 0, 0, 0, 25, 0, 0, 0,
   1, 1, 0, 0, 9, 0, 0, 0, 49, 48, 46, 48, 46, 48, 46, 53, 0, 0, 110, 178, 1, 0, 0, 0, 7]

/-- An encoded reply header: empty service context list, request id 5,
reply status NoException. -/
def replyHeaderBytes : List Nat := [0, 0, 0, 0, 5, 0, 0, 0, 0, 0, 0, 0]

/-- A little-endian GIOP Reply frame of declared size 57 carrying
replyHeaderBytes and iorBody. -/
def frame0 : List Nat :=
  [71, 73, 79, 80, 1, 0, 1, 1, 57, 0, 0, 0] ++ replyHeaderBytes ++ iorBody

/-- A loop state with the concrete bind address and an empty registry. -/
def l0 : LoopState := ⟨bindBytes, []⟩

/-- An OS that will assign port 43210 to the next ephemeral bind. -/
def os0 : Os := ⟨[some 43210]⟩

/-- The parsed GIOP header of frame0. -/
def hdr0 : GiopHeader := ⟨1, 0, 1, 1, 57⟩

/-- The IOR record found inside iorBody. -/
def ior0 : IOR := ⟨.bytes host0Nul, .num 45678⟩

/-- The registry key derived from ior0: the NUL-stripped host and the
port. -/
def key0 : List Nat × Nat := ([49, 48, 46, 48, 46, 48, 46, 53], 45678)

/-- The registry value stored under key0 once os0 has assigned port
43210. -/
def val0 : ForwardValue :=
  (⟨key0.1, 45678, bindBytes, 43210⟩, 43210, bindBytes ++ [0])

/-- The first eight octets of a Request header, delivered as one TCP
chunk. -/
def chunkA : List Nat := [71, 73, 79, 80, 1, 0, 0, 0]

/-- The remaining four octets of that Request header, delivered as a second
chunk. -/
def chunkB : List Nat := [0, 0, 0, 0]

/-- C1: the source's emission step (lines 78-81) packs the rewritten frame
from raw_body alone while recomputing the size from raw_reply_header ++
raw_body, so the emitted frame is not pack_giop(header with updated size,
reply header ++ new body): the payload omits the 12-octet reply header and
the declared size exceeds the payload length by 12. -/
theorem giop_emission_omits_reply_header :
    emitRewritten hdr0 replyHeaderBytes iorBody = pack_giop ⟨1, 0, 1, 1, 57⟩ iorBody ∧
    emitRewritten hdr0 replyHeaderBytes iorBody ≠
      pack_giop ⟨1, 0, 1, 1, 57⟩ (replyHeaderBytes ++ iorBody) ∧
    unpack_giop_header (emitRewritten hdr0 replyHeaderBytes iorBody) =
      .ok ⟨1, 0, 1, 1, 57⟩ ∧
    (emitRewritten hdr0 replyHeaderBytes iorBody).length = 12 + 45 := by
  decide

/-- C2: the registry value is built as (server, bound port, bound host ++
NUL) but destructured as server, host, port, so the patched IOR's host
field receives the numeric local port and its port field receives the local
host octet-string - not the other way around as the claim states - and the
subsequent repack of the ill-typed IOR fails, so the frame carrying the
claimed rewritten host and port is never produced. -/
theorem ior_patch_swaps_host_and_port :
    patchIor val0 ior0 = ⟨.num 43210, .bytes (bindBytes ++ [0])⟩ ∧
    patchIor val0 ior0 ≠ ⟨.bytes (bindBytes ++ [0]), .num 43210⟩ ∧
    (read_frame os0 l0 ⟨frame0, []⟩).1 = .error .typeError := by
  decide

/-- C4: the reader uses asyncio read which returns up to n octets, so a
12-octet header split across two chunks is truncated to the first chunk and
rejected as malformed even though the remaining octets are still en route;
the same 12 octets delivered in one chunk are read whole, and EOF before
any octet yields the empty (clean close) result. -/
theorem frame_reader_short_read :
    (read_frame os0 l0 ⟨[], [chunkA, chunkB]⟩).1 = .error .malformedHeader ∧
    (chunkA ++ chunkB).length = 12 ∧
    unpack_giop_header (chunkA ++ chunkB) = .ok ⟨1, 0, 0, 0, 0⟩ ∧
    (read_frame os0 l0 ⟨chunkA ++ chunkB, []⟩).1 = .ok (chunkA ++ chunkB) ∧
    (read_frame os0 l0 ⟨[], []⟩).1 = .ok [] := by
  decide

/-- C7 counterexample: when the dynamic bind fails, read_frame raises
instead of returning the frame unchanged - the triggering Reply is not
forwarded - though indeed no registry entry is created. -/
theorem bind_failure_drops_reply :
    (read_frame ⟨[none]⟩ l0 ⟨frame0, []⟩).1 = .error .bindFailure ∧
    (read_frame ⟨[none]⟩ l0 ⟨frame0, []⟩).1 ≠ .ok frame0 ∧
    (read_frame ⟨[none]⟩ l0 ⟨frame0, []⟩).2.2.1.forward_dict = [] := by
  decide

/-- An IOR naming host a (NUL-terminated) at port 1. -/
def iorA : IOR := ⟨.bytes [97, 0], .num 1⟩

/-- An IOR with the same host octet-string as iorA but port 2. -/
def iorB : IOR := ⟨.bytes [97, 0], .num 2⟩

/-- The ensure step for iorA's key, from an empty registry. -/
def ensA : Except Err ForwardValue × Os × LoopState :=
  ensureForward ⟨[some 5001, some 5002]⟩ l0 ([97], 1)

/-- The ensure step for iorB's key, in the state ensA leaves behind. -/
def ensB : Except Err ForwardValue × Os × LoopState :=
  ensureForward ensA.2.1 ensA.2.2 ([97], 2)

/-- C10 counterexample: two IOR observations with equal host octet-strings
but different ports yield different registry keys and are given two
distinct registry entries, so equal hosts alone do not map to the same
entry. -/
theorem equal_hosts_distinct_ports_distinct_entries :
    iorA.host = iorB.host ∧
    iorKey iorA ≠ iorKey iorB ∧
    ensA.1 ≠ ensB.1 ∧
    ensB.2.2.forward_dict.length = 2 := by
  decide

theorem decodeU32_encodeU32 (le : Bool) (n : Nat) (h : n < 4294967296) :
    decodeU32 le (encodeU32 le n) = n := by
  cases le <;> simp [decodeU32, encodeU32, List.getD] <;> omega

/-- C8: packing a header with a body of the declared size, unpacking the
result's header and repacking it with the same body reproduces the original
octets, whose length is 12 plus the body length. -/
theorem pack_unpack_roundtrip (h : GiopHeader) (B : List Nat)
    (hsz : h.size < 4294967296) (hB : B.length = h.size) :
    unpack_giop_header (pack_giop h B) = .ok h ∧
    (∀ h2, unpack_giop_header (pack_giop h B) = .ok h2 → pack_giop h2 B = pack_giop h B) ∧
    (pack_giop h B).length = 12 + B.length := by
  have hd : decodeU32 (h.flags % 2 == 1) (encodeU32 (h.flags % 2 == 1) h.size) = h.size :=
    decodeU32_encodeU32 _ _ hsz
  have hu : unpack_giop_header (pack_giop h B) = .ok h := by
    obtain ⟨ma, mi, fl, mt, sz⟩ := h
    simp only at hd
    cases hle : (fl % 2 == 1) <;>
      (rw [hle] at hd
       simp [encodeU32] at hd
       simp [pack_giop, hle, encodeU32, unpack_giop_header, hd])
  refine ⟨hu, ?_, ?_⟩
  · intro h2 hh2
    rw [hu] at hh2
    cases hh2
    rfl
  · cases hle : (h.flags % 2 == 1) <;>
      simp [pack_giop, hle, encodeU32] <;> omega

/-- Witness for C8 at a concrete header and body. -/
theorem pack_unpack_roundtrip_witness :
    unpack_giop_header (pack_giop ⟨1, 2, 0, 0, 3⟩ [9, 9, 9]) = .ok ⟨1, 2, 0, 0, 3⟩ :=
  (pack_unpack_roundtrip ⟨1, 2, 0, 0, 3⟩ [9, 9, 9] (by decide) (by decide)).1

theorem dictLookup_insert_self {α β : Type} [DecidableEq α] (k : α) (v : β)
    (d : List (α × β)) : dictLookup k (dictInsert k v d) = some v := by
  induction d with
  | nil => simp [dictInsert, dictLookup]
  | cons kv rest ih =>
    obtain ⟨k2, v2⟩ := kv
    by_cases hk : k2 = k
    · simp [dictInsert, hk, dictLookup]
    · simp [dictInsert, hk, dictLookup, ih]

/-- The keys of an embedded dict are pairwise distinct. -/
def keysNodup {α β : Type} (d : List (α × β)) : Prop :=
  (d.map Prod.fst).Nodup

theorem mem_keys_dictInsert {α β : Type} [DecidableEq α] {x k : α} (v : β)
    (d : List (α × β)) (h : x ∈ (dictInsert k v d).map Prod.fst) :
    x = k ∨ x ∈ d.map Prod.fst := by
  induction d with
  | nil => simpa [dictInsert] using h
  | cons kv rest ih =>
    obtain ⟨k2, v2⟩ := kv
    by_cases hk : k2 = k
    · simp [dictInsert, hk] at h
      rcases h with h | h
      · exact Or.inl h
      · exact Or.inr (by simp [h])
    · simp [dictInsert, hk] at h
      rcases h with h | h
      · exact Or.inr (by simp [h])
      · rcases ih (by simpa using h) with h2 | h2
        · exact Or.inl h2
        · exact Or.inr (by simp [h2])

theorem keysNodup_dictInsert {α β : Type} [DecidableEq α] (k : α) (v : β)
    {d : List (α × β)} (h : keysNodup d) : keysNodup (dictInsert k v d) := by
  induction d with
  | nil => simp [keysNodup, dictInsert]
  | cons kv rest ih =>
    obtain ⟨k2, v2⟩ := kv
    simp only [keysNodup, List.map_cons, List.nodup_cons] at h
    by_cases hk : k2 = k
    · subst hk
      have he : dictInsert k2 v ((k2, v2) :: rest) = (k2, v) :: rest := by
        simp [dictInsert]
      rw [he]
      simp only [keysNodup, List.map_cons, List.nodup_cons]
      exact ⟨h.1, h.2⟩
    · have ihr := ih h.2
      simp only [dictInsert, if_neg hk, keysNodup, List.map_cons, List.nodup_cons]
      refine ⟨?_, ihr⟩
      intro hmem
      rcases mem_keys_dictInsert v rest hmem with h1 | h1
      · exact hk h1
      · exact h.1 h1

/-- C5: once a registry entry exists for a key, the ensure step returns that
entry leaving the OS and the whole loop state untouched (so no listener is
created); a successful ensure leaves the returned entry stored under its
key, so every later ensure call with the same key returns the same entry;
and insertion keeps at most one registry entry per key. -/
theorem ensure_idempotent (os : Os) (l : LoopState) (key : List Nat × Nat) :
    (∀ v, dictLookup key l.forward_dict = some v →
      ensureForward os l key = (.ok v, os, l)) ∧
    (∀ v os2 l2, ensureForward os l key = (.ok v, os2, l2) →
      dictLookup key l2.forward_dict = some v) ∧
    (∀ v os2 l2, keysNodup l.forward_dict →
      ensureForward os l key = (.ok v, os2, l2) → keysNodup l2.forward_dict) := by
  refine ⟨?_, ?_, ?_⟩
  · intro v hv
    simp [ensureForward, hv, lookupStep]
  · intro v os2 l2 h
    rcases hl : dictLookup key l.forward_dict with _ | v0
    · rcases hbind : os.binds with _ | ⟨o, rest⟩
      · simp [ensureForward, hl, startServer, hbind] at h
      · cases o with
        | none => simp [ensureForward, hl, startServer, hbind] at h
        | some p =>
          simp [ensureForward, hl, startServer, hbind, lookupStep,
            dictLookup_insert_self] at h
          rw [← h.2.2, ← h.1]
          simp [dictLookup_insert_self]
    · simp [ensureForward, hl, lookupStep] at h
      rw [← h.2.2, ← h.1]
      exact hl
  · intro v os2 l2 hnd h
    rcases hl : dictLookup key l.forward_dict with _ | v0
    · rcases hbind : os.binds with _ | ⟨o, rest⟩
      · simp [ensureForward, hl, startServer, hbind] at h
      · cases o with
        | none => simp [ensureForward, hl, startServer, hbind] at h
        | some p =>
          simp [ensureForward, hl, startServer, hbind, lookupStep,
            dictLookup_insert_self] at h
          rw [← h.2.2]
          exact keysNodup_dictInsert key _ hnd
    · simp [ensureForward, hl, lookupStep] at h
      rw [← h.2.2]
      exact hnd

/-- A loop state whose registry already holds key0 bound to val0. -/
def l1 : LoopState := ⟨bindBytes, [(key0, val0)]⟩

/-- Witness for C5: a second ensure call for an already-registered key
returns the stored entry and changes nothing. -/
theorem ensure_idempotent_witness :
    ensureForward ⟨[]⟩ l1 key0 = (.ok val0, ⟨[]⟩, l1) :=
  (ensure_idempotent ⟨[]⟩ l1 key0).1 val0 (by decide)

/-- An OS whose bind outcomes never assign port zero to an ephemeral
request. -/
@[reducible] def osGood (os : Os) : Prop := ∀ o ∈ os.binds, o ≠ some 0

/-- A good registry value: its stored local port is nonzero and is the
listener's OS-resolved bound port, and the listener is bound on the given
address. -/
@[reducible] def entryGood (bind : List Nat) (v : ForwardValue) : Prop :=
  v.2.1 ≠ 0 ∧ v.2.1 = v.1.boundPort ∧ v.1.boundHost = bind

/-- All registry entries are good for the given bind address. -/
@[reducible] def goodDict (bind : List Nat) (d : List ((List Nat × Nat) × ForwardValue)) : Prop :=
  ∀ kv ∈ d, entryGood bind kv.2

theorem goodDict_dictInsert {bind : List Nat} {v : ForwardValue}
    {d : List ((List Nat × Nat) × ForwardValue)} (k : List Nat × Nat)
    (hv : entryGood bind v) (hd : goodDict bind d) :
    goodDict bind (dictInsert k v d) := by
  induction d with
  | nil =>
    intro kv hkv
    simp [dictInsert] at hkv
    rw [hkv]
    exact hv
  | cons kv0 rest ih =>
    intro kv hkv
    obtain ⟨k2, v2⟩ := kv0
    by_cases hk : k2 = k
    · simp only [dictInsert, if_pos hk] at hkv
      rcases List.mem_cons.mp hkv with h1 | h1
      · rw [h1]
        exact hv
      · exact hd _ (List.mem_cons_of_mem _ h1)
    · simp only [dictInsert, if_neg hk] at hkv
      rcases List.mem_cons.mp hkv with h1 | h1
      · rw [h1]
        exact hd _ (List.mem_cons_self _ _)
      · exact ih (fun kv2 hm => hd kv2 (List.mem_cons_of_mem _ hm)) kv h1

theorem goodDict_lookup {bind : List Nat} {k : List Nat × Nat} {v : ForwardValue}
    {d : List ((List Nat × Nat) × ForwardValue)} (hd : goodDict bind d)
    (h : dictLookup k d = some v) : entryGood bind v := by
  induction d with
  | nil => simp [dictLookup] at h
  | cons kv rest ih =>
    obtain ⟨k2, v2⟩ := kv
    by_cases hk : k2 = k
    · simp [dictLookup, hk] at h
      rw [← h]
      exact hd _ (List.mem_cons_self _ _)
    · simp [dictLookup, hk] at h
      exact ih (fun kv2 hm => hd kv2 (List.mem_cons_of_mem _ hm)) h

/-- C6: if the OS never assigns port zero and every present registry entry
has a nonzero local port (resolved from its listener's bound port) and a
listener bound on the configured bind address, then after an ensure step
every entry still does, and any entry the step returns is such an entry. -/
theorem registry_entry_invariant (os : Os) (l : LoopState) (key : List Nat × Nat)
    (hos : osGood os) (hd : goodDict l.bind_address l.forward_dict) :
    goodDict (ensureForward os l key).2.2.bind_address
      (ensureForward os l key).2.2.forward_dict ∧
    (∀ v, (ensureForward os l key).1 = .ok v →
      entryGood (ensureForward os l key).2.2.bind_address v) ∧
    osGood (ensureForward os l key).2.1 := by
  rcases hl : dictLookup key l.forward_dict with _ | v0
  · rcases hbind : os.binds with _ | ⟨o, rest⟩
    · simp only [ensureForward, hl, Option.isSome_none, Bool.false_eq_true, if_false,
        startServer, hbind]
      refine ⟨hd, ?_, ?_⟩
      · intro v hv
        simp at hv
      · intro o ho
        simp at ho
    · cases o with
      | none =>
        simp only [ensureForward, hl, Option.isSome_none, Bool.false_eq_true, if_false,
          startServer, hbind]
        refine ⟨hd, ?_, ?_⟩
        · intro v hv
          simp at hv
        · intro o2 ho2
          exact hos o2 (by simp [hbind, ho2])
      | some p =>
        have hp : p ≠ 0 := by
          intro hp0
          exact hos (some p) (by simp [hbind]) (by rw [hp0])
        have hvg : entryGood l.bind_address
            (⟨key.1, key.2, l.bind_address, p⟩, p, l.bind_address ++ [0]) := by
          exact ⟨hp, rfl, rfl⟩
        simp only [ensureForward, hl, Option.isSome_none, Bool.false_eq_true, if_false,
          startServer, hbind, if_pos rfl, lookupStep, dictLookup_insert_self]
        refine ⟨?_, ?_, ?_⟩
        · exact goodDict_dictInsert key hvg hd
        · intro v hv
          simp at hv
          rw [← hv]
          exact hvg
        · intro o2 ho2
          exact hos o2 (by simp [hbind, ho2])
  · simp only [ensureForward, hl, Option.isSome_some, if_pos rfl, lookupStep]
    refine ⟨hd, ?_, ?_⟩
    · intro v hv
      simp at hv
      rw [← hv]
      exact goodDict_lookup hd hl
    · exact hos

/-- Witness for C6 at the concrete scenario state. -/
theorem registry_entry_invariant_witness :
    goodDict (ensureForward os0 l0 key0).2.2.bind_address
      (ensureForward os0 l0 key0).2.2.forward_dict :=
  (registry_entry_invariant os0 l0 key0 (by decide) (by decide)).1

theorem sread_single (n : Nat) (c : List Nat) :
    sread n ⟨c, []⟩ = (c.take n, ⟨c.drop n, []⟩) := by
  cases c with
  | nil => simp [sread, sreadAux]
  | cons x xs => rfl

/-- A well-formed little-endian Reply frame of size 24 whose reply header
carries one service context (id 0, four data octets) before request id 7
and reply status 1 (UserException). -/
def svcFrame : List Nat :=
  [71, 73, 79, 80, 1, 0, 1, 1, 24, 0, 0, 0,
   1, 0, 0, 0, 0, 0, 0, 0, 4, 0, 0, 0, 9, 9, 9, 9, 7, 0, 0, 0, 1, 0, 0, 0]

/-- C3 counterexample: a well-formed Reply with a nonempty service-context
list and status UserException - the codec parses its full payload to reply
status 1, which is not NoException - yet read_frame slices the reply header
at a fixed 12 octets, fails with MalformedReply, and does not pass the
frame through. -/
theorem nonempty_service_context_reply_not_passed_through :
    unpack_reply_header true (svcFrame.drop 12) = .ok ⟨7, 1⟩ ∧
    (⟨7, 1⟩ : ReplyHeader).replyStatus ≠ ReplyStatus.NoException ∧
    (read_frame os0 l0 ⟨svcFrame, []⟩).1 = .error .malformedReply ∧
    (read_frame os0 l0 ⟨svcFrame, []⟩).1 ≠ .ok svcFrame := by
  decide

/-- C3 amended: a frame whose parsed header is not a Reply, or a Reply
whose reply header parses within the first 12 payload octets (an empty
service-context list) with a status other than NoException, is returned by
read_frame exactly as consumed - header and body unchanged - with the
registry state untouched.  A non-NoException Reply whose service-context
list is nonempty does not reach this path: the source's fixed 12-octet
reply-header slice makes read_frame fail with MalformedReply instead. -/
theorem passthrough_preserves_frame (os : Os) (l : LoopState) (buf : List Nat)
    (h : GiopHeader)
    (hup : unpack_giop_header (buf.take 12) = .ok h)
    (hpass : h.messageType ≠ MessageType.Reply ∨
      ∃ r, unpack_reply_header (h.flags % 2 == 1)
          (((buf.drop 12).take h.size).take 12) = .ok r ∧
        r.replyStatus ≠ ReplyStatus.NoException) :
    read_frame os l ⟨buf, []⟩ =
      (.ok (buf.take (12 + h.size)), os, l, ⟨(buf.drop 12).drop h.size, []⟩) := by
  cases buf with
  | nil => simp [unpack_giop_header] at hup
  | cons b bs =>
    rw [List.take_add]
    by_cases hmt : h.messageType = MessageType.Reply
    · rcases hpass with hpm | ⟨r, hr, hst⟩
      · exact absurd hmt hpm
      · simp at hup hr
        simp [read_frame, sread_single, hup, hmt, hr, hst]
    · simp at hup
      simp [read_frame, sread_single, hup, hmt]

/-- A 12-octet Request frame: type 0, size 0. -/
def bufW : List Nat := [71, 73, 79, 80, 1, 0, 0, 0, 0, 0, 0, 0]

/-- Witness for C3: a concrete Request frame passes through unchanged. -/
theorem passthrough_preserves_frame_witness :
    read_frame os0 l0 ⟨bufW, []⟩ = (.ok bufW, os0, l0, ⟨[], []⟩) := by
  rw [passthrough_preserves_frame os0 l0 bufW ⟨1, 0, 0, 0, 0⟩ (by decide)
    (Or.inl (by decide))]
  decide

/-- C7 amended: when the dynamic bind fails while a Reply carrying a fresh
IOR is being processed, the bind error propagates out of read_frame - the
Reply is not forwarded and the pipe direction ends - and the registry is
left unchanged, so no entry exists for the key and a later IOR naming it
will retry the bind. -/
theorem bind_failure_propagates (os : Os) (l : LoopState) (buf : List Nat)
    (h : GiopHeader) (r : ReplyHeader) (ior : IOR) (start stop : Nat)
    (key : List Nat × Nat)
    (hup : unpack_giop_header (buf.take 12) = .ok h)
    (hmt : h.messageType = MessageType.Reply)
    (hr : unpack_reply_header (h.flags % 2 == 1)
      (((buf.drop 12).take h.size).take 12) = .ok r)
    (hst : r.replyStatus = ReplyStatus.NoException)
    (hior : find_ior (h.flags % 2 == 1) (((buf.drop 12).take h.size).drop 12) =
      some (ior, start, stop))
    (hkey : iorKey ior = .ok key)
    (hmiss : dictLookup key l.forward_dict = none)
    (hbind : os.binds.head? = some none) :
    (read_frame os l ⟨buf, []⟩).1 = .error .bindFailure ∧
    (read_frame os l ⟨buf, []⟩).2.2.1.forward_dict = l.forward_dict := by
  cases buf with
  | nil => simp [unpack_giop_header] at hup
  | cons b bs =>
    rcases hbinds : os.binds with _ | ⟨o, rest⟩
    · rw [hbinds] at hbind
      simp at hbind
    · rw [hbinds] at hbind
      simp at hbind
      subst hbind
      simp at hup hr hior
      simp [read_frame, sread_single, hup, hmt, hr, hst, hior, hkey,
        ensureForward, hmiss, startServer, hbinds]

/-- Witness for C7 at the concrete Reply frame and a failing bind. -/
theorem bind_failure_propagates_witness :
    (read_frame ⟨[none]⟩ l0 ⟨frame0, []⟩).1 = .error .bindFailure ∧
    (read_frame ⟨[none]⟩ l0 ⟨frame0, []⟩).2.2.1.forward_dict = l0.forward_dict :=
  bind_failure_propagates ⟨[none]⟩ l0 frame0 ⟨1, 0, 1, 1, 57⟩ ⟨5, 0⟩ ior0 20 45 key0
    (by decide) (by decide) (by decide) (by decide) (by decide) (by decide)
    (by decide) (by decide)

theorem getLast?_cons_of {α : Type} {l : List α} {x e : α} (h : l.getLast? = some e) :
    (x :: l).getLast? = some e := by
  cases l with
  | nil => simp [List.getLast?] at h
  | cons y ys =>
    rw [List.getLast?_cons_cons]
    exact h

theorem forward_pipe_ends_close (st : StreamState) :
    (forward_pipe st).getLast? = some Event.closeWriter := by
  generalize hn : msize st = n
  induction n using Nat.strong_induction_on generalizing st with
  | _ n ih =>
    rw [forward_pipe]
    by_cases h : at_eof st = true
    · simp [h]
    · simp only [h, dite_false]
      have hlt : msize (sread 4096 st).2 < n := by
        rw [← hn]
        exact msize_sread_lt 4096 (by omega) st (by simpa using h)
      exact getLast?_cons_of (ih _ hlt _ rfl)

theorem inspect_pipe_ends_close (os : Os) (l : LoopState) (st : StreamState) :
    (inspect_pipe os l st).1.getLast? = some Event.closeWriter := by
  generalize hn : msize st = n
  induction n using Nat.strong_induction_on generalizing os l st with
  | _ n ih =>
    rw [inspect_pipe]
    by_cases h : at_eof st = true
    · simp [h]
    · simp only [h, dite_false]
      rcases hr : (read_frame os l st).1 with e | data
      · simp [hr]
      · cases hd : data.isEmpty with
        | true => simp [hr, hd]
        | false =>
          have hlt : msize (read_frame os l st).2.2.2 < n := by
            rw [← hn]
            exact read_frame_msize os l st (by simpa using h)
          have ihh := ih _ hlt (read_frame os l st).2.1 (read_frame os l st).2.2.1
            (read_frame os l st).2.2.2 rfl
          simp [hr, hd]
          exact getLast?_cons_of ihh

/-- C9: both relay loops close their writer endpoint on every exit path -
clean EOF, an empty frame, or an exception raised inside the loop body - so
the event trace observed at either pipe's writer always ends with the
writer being closed. -/
theorem pipes_close_writer (st : StreamState) (os : Os) (l : LoopState) :
    (forward_pipe st).getLast? = some Event.closeWriter ∧
    (inspect_pipe os l st).1.getLast? = some Event.closeWriter :=
  ⟨forward_pipe_ends_close st, inspect_pipe_ends_close os l st⟩

/-- C10 amended: the registry key strips the trailing NUL octet from the
IOR's host octet-string and keeps the IOR's port, so two IOR observations
with equal host octet-strings (each including its trailing NUL) and equal
ports derive the same key (hence the same registry entry); and the
forwarder spawned on a key's first observation targets exactly the
NUL-stripped host at the IOR's port. -/
theorem ior_key_same_host_port (ior1 ior2 : IOR)
    (hh : ior1.host = ior2.host) (hp : ior1.port = ior2.port) :
    iorKey ior1 = iorKey ior2 ∧
    (∀ hb p, ior1.host = .bytes hb → ior1.port = .num p →
      iorKey ior1 = .ok (hb.dropLast, p)) ∧
    (∀ os l key v os2 l2, dictLookup key l.forward_dict = none →
      ensureForward os l key = (.ok v, os2, l2) →
      v.1.targetHost = key.1 ∧ v.1.targetPort = key.2) := by
  refine ⟨?_, ?_, ?_⟩
  · simp [iorKey, hh, hp]
  · intro hb p h1 h2
    simp [iorKey, h1, h2]
  · intro os l key v os2 l2 hmiss h
    rcases hbind : os.binds with _ | ⟨o, rest⟩
    · simp [ensureForward, hmiss, startServer, hbind] at h
    · cases o with
      | none => simp [ensureForward, hmiss, startServer, hbind] at h
      | some p =>
        simp [ensureForward, hmiss, startServer, hbind, lookupStep,
          dictLookup_insert_self] at h
        rw [← h.1]
        exact ⟨rfl, rfl⟩

/-- Witness for C10 at the concrete scenario key: the spawned forwarder
targets the NUL-stripped backend host and its port. -/
theorem ior_key_same_host_port_witness :
    val0.1.targetHost = key0.1 ∧ val0.1.targetPort = key0.2 :=
  (ior_key_same_host_port ior0 ior0 rfl rfl).2.2 os0 l0 key0 val0 ⟨[]⟩
    ⟨bindBytes, [(key0, val0)]⟩ (by decide) (by decide)
